import Mathlib

/-!
Verification development for `src/pre_processing/convert_mat_to_jpg.py`.

The script converts MATLAB `.mat` files holding a cell array `Icolor` of
image frames into JPEG files.  We embed the numeric and shape-processing
pipeline shallowly: numpy arrays become a flat row-major list of scalar
values together with a shape and a dtype-kind flag; floating-point scalars
are modelled as rationals, with an explicit NaN constructor (infinities do
not occur in the modelled inputs); Python exceptions become `Except`.
-/

/-- Scalar of a numpy array: a finite value (modelled exactly as a rational)
or IEEE NaN. -/
inductive Val where
  | fin (q : ℚ)
  | nan
  deriving DecidableEq, Repr, Inhabited

/-- A numpy array as seen by `_to_uint8`: a shape, the row-major flattened
data, and whether `dtype.kind == "f"` (floating point). -/
structure NDArray where
  shape : List Nat
  data : List Val
  isFloat : Bool
  deriving DecidableEq, Repr, Inhabited

/-- A `uint8` numpy array: the result of `np.clip(x, 0, 255).astype(np.uint8)`.
Data values are natural numbers (the theorems show they are at most 255). -/
structure U8Array where
  shape : List Nat
  data : List Nat
  deriving DecidableEq, Repr, Inhabited

/-- Exceptions raised while processing one `.mat` file.  Each constructor
records the data interpolated into the corresponding Python message:
`nanmaxEmpty` is the `ValueError` raised by `np.nanmax` on a zero-size
array; `icolorNotFound keys` is the RuntimeError listing the available
non-metadata keys; `unexpectedFormat ty` is the RuntimeError naming the
unexpected type of `Icolor`; `tooFewFrames n` is the RuntimeError stating
the actual frame count. -/
inductive ExtractErr where
  | nanmaxEmpty
  | icolorNotFound (keys : List String)
  | unexpectedFormat (tyName : String)
  | tooFewFrames (count : Nat)
  deriving DecidableEq, Repr

/-- Multiplication by `255.0` (the statement `x = x * 255.0`); NaN stays NaN. -/
def mul255 : Val → Val
  | .fin q => .fin (q * 255)
  | .nan => .nan

/-- Elementwise effect of `np.clip(x, 0, 255)`; `np.clip` of NaN is NaN. -/
def clipVal : Val → Val
  | .fin q => .fin (max 0 (min q 255))
  | .nan => .nan

/-- Elementwise effect of `.astype(np.uint8)` on a clipped value.  On the
nonnegative values produced by the clip, the C cast truncates toward zero,
which coincides with the floor.  The cast of NaN is unspecified in numpy;
it is modelled as 0 (any choice in 0..255 would do, no theorem depends on
it beyond membership in the uint8 range). -/
def castU8 : Val → Nat
  | .fin q => (⌊q⌋).toNat
  | .nan => 0

/-- Maximum of the finite (non-NaN) values of the data, `none` when there is
no finite value.  `np.nanmax` returns this maximum when it exists. -/
def maxFinite (data : List Val) : Option ℚ :=
  (data.filterMap (fun v => match v with | .fin q => some q | .nan => none)).max?

/-- Truth value of the Python test `np.nanmax(x) <= 1.0` on a nonempty array:
when every element is NaN, `np.nanmax` returns NaN and the comparison is
False. -/
def nanmaxLEOne (data : List Val) : Bool :=
  match maxFinite data with
  | some m => decide (m ≤ 1)
  | none => false

/-- Shallow embedding of `_to_uint8`.  On a floating-point array the code
first calls `np.nanmax`, which raises on a zero-size array; when the
nanmax is at most 1.0 the data is scaled by 255.  All dtypes are then
clipped to [0, 255] and cast to uint8. -/
def to_uint8 (a : NDArray) : Except ExtractErr U8Array :=
  if a.isFloat then
    if a.data.isEmpty then
      Except.error ExtractErr.nanmaxEmpty
    else
      let d := if nanmaxLEOne a.data then a.data.map mul255 else a.data
      Except.ok { shape := a.shape, data := d.map (fun v => castU8 (clipVal v)) }
  else
    Except.ok { shape := a.shape, data := a.data.map (fun v => castU8 (clipVal v)) }

/-- Shape-and-data effect of the squeeze `x = x[:, :, 0]` guarded by
`x.ndim == 3 and x.shape[2] == 1`.  For a row-major `(H, W, 1)` array the
flattened data is unchanged. -/
def squeezeLast (x : U8Array) : U8Array :=
  if x.shape.length = 3 ∧ x.shape.getD 2 0 = 1 then
    { shape := x.shape.take 2, data := x.data }
  else x

/-- Row-major data of `np.transpose(x, (1, 2, 0))` applied to a `(c, h, w)`
array: the element at the new flat position `(i*w + j)*c + cc` is the old
element at `cc*(h*w) + i*w + j`, and `i*w + j` is the quotient of the new
position by `c`. -/
def transposeData (c h w : Nat) (d : List Nat) : List Nat :=
  (List.range (h * w * c)).map (fun idx => d.getD (idx % c * (h * w) + idx / c) 0)

/-- Shape-and-data effect of `x = np.transpose(x, (1, 2, 0))` guarded by
`x.ndim == 3 and x.shape[0] in (1, 3, 4) and x.shape[1] > 32 and x.shape[2] > 32`. -/
def transposeCHW (x : U8Array) : U8Array :=
  if x.shape.length = 3 ∧
      (x.shape.getD 0 0 = 1 ∨ x.shape.getD 0 0 = 3 ∨ x.shape.getD 0 0 = 4) ∧
      32 < x.shape.getD 1 0 ∧ 32 < x.shape.getD 2 0 then
    { shape := [x.shape.getD 1 0, x.shape.getD 2 0, x.shape.getD 0 0],
      data := transposeData (x.shape.getD 0 0) (x.shape.getD 1 0) (x.shape.getD 2 0) x.data }
  else x

/-- Shape correction of `_save_jpg`: the singleton-last-axis squeeze runs
first, then the channel-first transpose heuristic. -/
def saveJpgArray (x : U8Array) : U8Array :=
  transposeCHW (squeezeLast x)

/-- Shallow embedding of `_save_jpg` up to the array handed to
`Image.fromarray(...).save(...)`: dtype conversion by `_to_uint8` followed
by the shape correction. -/
def save_jpg (img : NDArray) : Except ExtractErr U8Array :=
  (to_uint8 img).map saveJpgArray

/-- ASCII lowercasing of one character: A..Z map to a..z, everything else is
unchanged.  Python `str.lower` agrees with this on the ASCII strings that
occur here. -/
def lowerChar (c : Char) : Char :=
  if c.isUpper then Char.ofNat (c.toNat + 32) else c

/-- ASCII lowercasing of a string, the model of Python `str.lower`. -/
def strLower (s : String) : String :=
  String.mk (s.toList.map lowerChar)

/-- Prefix test on the character sequence, the model of Python
`str.startswith`. -/
def strStartsWith (s pre : String) : Bool :=
  pre.toList.isPrefixOf s.toList

/-- Shallow embedding of `_find_key_case_insensitive`: the first key whose
lowercasing equals the lowercasing of the wanted name. -/
def find_key_case_insensitive (keys : List String) (wanted : String) : Option String :=
  keys.find? (fun k => strLower k = strLower wanted)

/-- Possible runtime shapes of the resolved `Icolor` value, as distinguished
by the normalization code: an object-dtype numpy array (whose `ravel()`
yields the listed elements in row-major order), a Python list, a tuple,
some other iterable object (for which `list(ic)` yields the listed
elements), or a non-iterable value (for which `list(ic)` raises
`TypeError`; `tyName` records `type(ic)` as interpolated into the error
message). -/
inductive ICVal where
  | objArray (elems : List NDArray)
  | pyList (elems : List NDArray)
  | pyTuple (elems : List NDArray)
  | iterObj (elems : List NDArray)
  | nonIter (tyName : String)
  deriving DecidableEq, Repr, Inhabited

/-- The loaded `.mat` container as `extract_from_mat` sees it: the file name
of the source path and the variable table as an ordered association list
(Python dicts preserve insertion order). -/
structure MatFile where
  fname : String
  vars : List (String × ICVal)
  deriving DecidableEq, Repr, Inhabited

/-- Dictionary access `mat[key]`.  `extract_from_mat` only calls it with a
key produced by `_find_key_case_insensitive`, hence present in the table;
the default marks the impossible `KeyError`. -/
def dictGet (vars : List (String × ICVal)) (k : String) : ICVal :=
  ((vars.find? (fun kv => kv.1 = k)).map Prod.snd).getD (ICVal.nonIter "KeyError")

/-- Normalization of the resolved `Icolor` value into a linear list of
frames (the if/elif/else chain after `ic = mat[key]`). -/
def normalizeIC : ICVal → Except ExtractErr (List NDArray)
  | .objArray elems => Except.ok elems
  | .pyList elems => Except.ok elems
  | .pyTuple elems => Except.ok elems
  | .iterObj elems => Except.ok elems
  | .nonIter tyName => Except.error (ExtractErr.unexpectedFormat tyName)

/-- Left-to-right effectful map over `Except`, mirroring the Python `for`
loop that raises at the first failing iteration. -/
def mapExcept {α β : Type} (g : α → Except ExtractErr β) : List α → Except ExtractErr (List β)
  | [] => Except.ok []
  | a :: l =>
    match g a with
    | Except.error e => Except.error e
    | Except.ok b =>
      match mapExcept g l with
      | Except.error e => Except.error e
      | Except.ok bs => Except.ok (b :: bs)

/-- True when the character is an ASCII decimal digit, the digits matched by
the regex class in the filenames that occur here. -/
def isDigitChar (ch : Char) : Bool := ch.isDigit

/-- Match of `CHIP_RE = re.compile(r"^Chip_(\d+)\.mat$", re.IGNORECASE)`
against a file name, returning the captured digit group.  The literal parts
are compared case-insensitively; the digits are taken verbatim from the
original name. -/
def chipMatch (name : String) : Option String :=
  let lower := name.toList.map lowerChar
  if "chip_".toList.isPrefixOf lower && ".mat".toList.isSuffixOf lower then
    let mid := (name.toList.drop 5).take (name.toList.length - 9)
    if mid.length > 0 && mid.all isDigitChar then some (String.mk mid) else none
  else none

/-- Embedding of `pathlib`'s `Path(name).stem`: the name without its final
suffix, where a suffix is a dot segment whose dot is neither the first nor
the last character of the name. -/
def stem (name : String) : String :=
  let cs := name.toList
  match ((List.range cs.length).filter (fun i => cs.getD i ' ' = '.')).getLast? with
  | some i => if 0 < i ∧ i < cs.length - 1 then String.mk (cs.take i) else name
  | none => name

/-- Chip identifier derivation: `m.group(1) if m else mat_path.stem`. -/
def chipId (fname : String) : String :=
  match chipMatch fname with
  | some digits => digits
  | none => stem fname

/-- Output file name `f"imagem_⟨chip_id⟩_⟨i⟩.jpg"` for the 1-based index `i`
(`PREFIX` is the constant string `"imagem"`). -/
def outName (cid : String) (i : Nat) : String :=
  "imagem_" ++ cid ++ "_" ++ toString i ++ ".jpg"

/-- Frame-count validation and the write loop `for i in range(1, 6)`: frame
`frames[i - 1]` is converted by `_save_jpg` and written under
`outName chip_id i`.  The returned list pairs each output name with the
array handed to the JPEG encoder. -/
def processFrames (cid : String) (frames : List NDArray) :
    Except ExtractErr (List (String × U8Array)) :=
  if frames.length < 5 then
    Except.error (ExtractErr.tooFewFrames frames.length)
  else
    mapExcept
      (fun i => (save_jpg (frames.getD (i - 1) default)).map (fun img => (outName cid i, img)))
      [1, 2, 3, 4, 5]

/-- Shallow embedding of `extract_from_mat`: resolve the `Icolor` key
case-insensitively (raising with the list of non-metadata keys when
absent), normalize the value to a frame list, then validate and write the
first five frames. -/
def extract_from_mat (f : MatFile) : Except ExtractErr (List (String × U8Array)) :=
  match find_key_case_insensitive (f.vars.map Prod.fst) "Icolor" with
  | none =>
    Except.error (ExtractErr.icolorNotFound
      ((f.vars.map Prod.fst).filter (fun k => !(strStartsWith k "__"))))
  | some key =>
    match normalizeIC (dictGet f.vars key) with
    | Except.error e => Except.error e
    | Except.ok frames => processFrames (chipId f.fname) frames

/-- One console line of the batch driver: `[OK] ⟨name⟩ -> ...` or
`[ERRO] ⟨name⟩: ⟨message⟩`. -/
inductive LogEntry where
  | ok (fname : String)
  | err (fname : String) (e : ExtractErr)
  deriving DecidableEq, Repr

/-- Log line produced for one file by the try/except in `main`. -/
def logOf (f : MatFile) : LogEntry :=
  match extract_from_mat f with
  | Except.ok _ => LogEntry.ok f.fname
  | Except.error e => LogEntry.err f.fname e

/-- Whether one file's extraction succeeds. -/
def extractOk (f : MatFile) : Bool :=
  match extract_from_mat f with
  | Except.ok _ => true
  | Except.error _ => false

/-- Shallow embedding of the loop of `main` over the discovered files:
running image total and the per-file log, in order.  Each file is processed
inside the fault boundary; a success adds 5 to the total. -/
def mainLoop (files : List MatFile) : Nat × List LogEntry :=
  files.foldl
    (fun acc f =>
      match extract_from_mat f with
      | Except.ok _ => (acc.1 + 5, acc.2 ++ [LogEntry.ok f.fname])
      | Except.error e => (acc.1, acc.2 ++ [LogEntry.err f.fname e]))
    (0, [])

/-- A value as stored in a `.mat` file before loading: a numeric array
(shape plus row-major data), a cell array of stored values, or a MATLAB
struct with named fields. -/
inductive MatRaw where
  | arr (shape : List Nat) (data : List ℚ)
  | cell (shape : List Nat) (elems : List MatRaw)
  | strct (fields : List (String × MatRaw))

/-- A value as returned by `scipy.io.loadmat`: a bare Python scalar (a fully
squeezed 1-element numeric array), a numeric array, a cell array loaded as
an object array, a `mat_struct` object with attribute access
(`struct_as_record=False`), or a fixed-schema numpy record
(`struct_as_record=True`). -/
inductive MatVal where
  | scalar (q : ℚ)
  | arr (shape : List Nat) (data : List ℚ)
  | cell (shape : List Nat) (elems : List MatVal)
  | matStruct (fields : List (String × MatVal))
  | record (fields : List (String × MatVal))

/-- Removal of unit dimensions from a shape, the effect of squeezing. -/
def squeezeShape (s : List Nat) : List Nat :=
  s.filter (fun d => d ≠ 1)

mutual

/-- Loading of one stored value with the documented semantics of
`scipy.io.loadmat` flags: with `squeeze_me` set, unit matrix dimensions are
squeezed, so a 1-element numeric array becomes a bare scalar and a
1-element cell array becomes its (recursively loaded) sole element; with
`struct_as_record` unset, MATLAB structs load as `mat_struct` objects with
attribute access instead of fixed-schema numpy records. -/
def loadValue (squeeze_me struct_as_record : Bool) : MatRaw → MatVal
  | .arr s d =>
    if squeeze_me then
      match d with
      | [q] => MatVal.scalar q
      | _ => MatVal.arr (squeezeShape s) d
    else MatVal.arr s d
  | .cell s elems =>
    let loaded := loadList squeeze_me struct_as_record elems
    if squeeze_me then
      match loaded with
      | [v] => v
      | _ => MatVal.cell (squeezeShape s) loaded
    else MatVal.cell s loaded
  | .strct fields =>
    let loaded := loadFields squeeze_me struct_as_record fields
    if struct_as_record then MatVal.record loaded else MatVal.matStruct loaded

/-- Pointwise loading of the elements of a cell array. -/
def loadList (squeeze_me struct_as_record : Bool) : List MatRaw → List MatVal
  | [] => []
  | v :: l =>
    loadValue squeeze_me struct_as_record v :: loadList squeeze_me struct_as_record l

/-- Pointwise loading of the fields of a struct. -/
def loadFields (squeeze_me struct_as_record : Bool) :
    List (String × MatRaw) → List (String × MatVal)
  | [] => []
  | (k, v) :: l =>
    (k, loadValue squeeze_me struct_as_record v) :: loadFields squeeze_me struct_as_record l

end

/-- The load performed at line 50 of the script:
`loadmat(mat_path, squeeze_me=True, struct_as_record=False)` applied to the
file's variable table. -/
def loadmat_model (vars : List (String × MatRaw)) : List (String × MatVal) :=
  vars.map (fun kv => (kv.1, loadValue true false kv.2))

theorem castU8_clipVal_le (v : Val) : castU8 (clipVal v) ≤ 255 := by
  cases v with
  | nan => simp [clipVal, castU8]
  | fin q =>
    simp only [clipVal, castU8]
    have h1 : max 0 (min q 255) ≤ (255 : ℚ) := by
      apply max_le (by norm_num) (min_le_right _ _)
    have h2 : (⌊max 0 (min q 255)⌋ : ℤ) ≤ 255 := by
      have := Int.floor_le_floor h1
      simpa using this
    omega

theorem maxFinite_isEmpty_false {l : List Val} {m : ℚ} (h : maxFinite l = some m) :
    l.isEmpty = false := by
  cases l with
  | nil => simp [maxFinite] at h
  | cons a l => rfl

theorem castU8_clipVal_neg {q : ℚ} (hq : q < 0) : castU8 (clipVal (Val.fin q)) = 0 := by
  have h1 : min q 255 = q := min_eq_left (by linarith)
  have h2 : max 0 (min q 255) = 0 := by rw [h1]; exact max_eq_left (le_of_lt hq)
  simp [clipVal, castU8, h2]

theorem castU8_clipVal_gt {q : ℚ} (hq : 255 < q) : castU8 (clipVal (Val.fin q)) = 255 := by
  have h1 : min q 255 = 255 := min_eq_right (le_of_lt hq)
  have h2 : max 0 (min q 255) = 255 := by rw [h1]; exact max_eq_right (by norm_num)
  simp [clipVal, castU8, h2]


theorem castU8_clipVal_nat {n : ℕ} (hn : n ≤ 255) : castU8 (clipVal (Val.fin (n : ℚ))) = n := by
  have h1 : min (n : ℚ) 255 = (n : ℚ) := min_eq_left (by exact_mod_cast hn)
  have h2 : max 0 (min (n : ℚ) 255) = (n : ℚ) := by
    rw [h1]
    exact max_eq_right (by positivity)
  simp only [clipVal, castU8, h2, Int.floor_natCast, Int.toNat_natCast]

theorem map_eq_self_of {α : Type} {l : List α} {f : α → α} (h : ∀ x ∈ l, f x = x) :
    l.map f = l := by
  induction l with
  | nil => rfl
  | cons a l ih =>
    simp only [List.map_cons, h a (by simp)]
    rw [ih (fun x hx => h x (by simp [hx]))]

theorem getD_map_lt {α β : Type} (f : α → β) (l : List α) (i : Nat) (h : i < l.length)
    (d : α) (d2 : β) : (l.map f).getD i d2 = f (l.getD i d) := by
  rw [List.getD_eq_getElem?_getD, List.getD_eq_getElem?_getD, List.getElem?_map,
    List.getElem?_eq_getElem h]
  rfl

theorem to_uint8_error_shape {img : NDArray} {e : ExtractErr}
    (h : to_uint8 img = Except.error e) : e = ExtractErr.nanmaxEmpty := by
  simp only [to_uint8] at h
  by_cases hf : img.isFloat = true
  · rw [if_pos hf] at h
    by_cases he : img.data.isEmpty = true
    · rw [if_pos he] at h
      injection h with h2
      exact h2.symm
    · rw [if_neg he] at h
      simp at h
  · rw [if_neg hf] at h
    simp at h

theorem to_uint8_ok_cases {a : NDArray} {r : U8Array} (h : to_uint8 a = Except.ok r) :
    r.shape = a.shape ∧
    (r.data = a.data.map (fun v => castU8 (clipVal (mul255 v))) ∨
     r.data = a.data.map (fun v => castU8 (clipVal v))) := by
  simp only [to_uint8] at h
  by_cases hf : a.isFloat = true
  · rw [if_pos hf] at h
    by_cases he : a.data.isEmpty = true
    · rw [if_pos he] at h
      simp at h
    · rw [if_neg he] at h
      by_cases hs : nanmaxLEOne a.data = true
      · rw [if_pos hs] at h
        injection h with h2
        rw [← h2]
        refine ⟨rfl, Or.inl ?_⟩
        show (a.data.map mul255).map (fun v => castU8 (clipVal v)) = _
        rw [List.map_map]
        rfl
      · rw [if_neg hs] at h
        injection h with h2
        rw [← h2]
        exact ⟨rfl, Or.inr rfl⟩
  · rw [if_neg hf] at h
    injection h with h2
    rw [← h2]
    exact ⟨rfl, Or.inr rfl⟩

theorem to_uint8_ok_exists (a : NDArray) (h : a.isFloat = true → a.data ≠ []) :
    ∃ r, to_uint8 a = Except.ok r := by
  cases hf : a.isFloat with
  | false =>
    exact ⟨{ shape := a.shape, data := a.data.map (fun v => castU8 (clipVal v)) },
      by simp [to_uint8, hf]⟩
  | true =>
    have he : a.data.isEmpty = false := by
      cases hd : a.data with
      | nil => exact absurd hd (h hf)
      | cons x l => rfl
    cases hs : nanmaxLEOne a.data with
    | true =>
      exact ⟨{ shape := a.shape, data := (a.data.map mul255).map (fun v => castU8 (clipVal v)) },
        by simp [to_uint8, hf, he, hs]⟩
    | false =>
      exact ⟨{ shape := a.shape, data := a.data.map (fun v => castU8 (clipVal v)) },
        by simp [to_uint8, hf, he, hs]⟩

/-- C1: in `_to_uint8`, a floating-point array whose maximum finite value
(ignoring NaN) is at most 1.0 has its values multiplied by 255 before the
clip, and a floating-point array whose maximum exceeds 1.0 is not
scaled. -/
theorem c1_float_scaling (a : NDArray) (m : ℚ) (hf : a.isFloat = true)
    (hm : maxFinite a.data = some m) :
    (m ≤ 1 → to_uint8 a = Except.ok
      { shape := a.shape, data := a.data.map (fun v => castU8 (clipVal (mul255 v))) }) ∧
    (1 < m → to_uint8 a = Except.ok
      { shape := a.shape, data := a.data.map (fun v => castU8 (clipVal v)) }) := by
  have he : a.data.isEmpty = false := maxFinite_isEmpty_false hm
  constructor
  · intro hle
    have hb : nanmaxLEOne a.data = true := by simp [nanmaxLEOne, hm, hle]
    simp [to_uint8, hf, he, hb, List.map_map, Function.comp]
  · intro hgt
    have hb : nanmaxLEOne a.data = false := by
      simp only [nanmaxLEOne, hm]
      simp only [decide_eq_false_iff_not, not_le]
      exact hgt
    simp [to_uint8, hf, he, hb]

/-- Witness for C1: the float array [1, 0] has maximum 1 and is scaled, so 1
becomes 255; the float array [2] has maximum 2 > 1 and is not scaled, so 2
is merely clipped and cast to 2. -/
theorem c1_float_scaling_witness :
    to_uint8 { shape := [2], data := [Val.fin 1, Val.fin 0], isFloat := true } =
      Except.ok { shape := [2], data := [255, 0] } ∧
    to_uint8 { shape := [1], data := [Val.fin 2], isFloat := true } =
      Except.ok { shape := [1], data := [2] } := by
  constructor
  · have h := (c1_float_scaling
      { shape := [2], data := [Val.fin 1, Val.fin 0], isFloat := true } 1 rfl
      (by decide)).1 (by norm_num)
    rw [h]
    simp [mul255, clipVal, castU8]
  · have h := (c1_float_scaling
      { shape := [1], data := [Val.fin 2], isFloat := true } 2 rfl
      (by decide)).2 (by norm_num)
    rw [h]
    simp [mul255, clipVal, castU8]
    all_goals rfl

/-- C7: `_to_uint8` leaves an integer array with all values in [0, 255]
unchanged except for the cast to uint8, and saturates values outside
[0, 255] (of any dtype) to the interval bounds instead of wrapping. -/
theorem c7_roundtrip_saturation (a : NDArray) :
    (a.isFloat = false →
      (∀ v ∈ a.data, ∃ n : ℕ, n ≤ 255 ∧ v = Val.fin (n : ℚ)) →
      to_uint8 a = Except.ok
        { shape := a.shape, data := a.data.map (fun v => castU8 (clipVal v)) } ∧
      (a.data.map (fun v => castU8 (clipVal v))).map (fun n : ℕ => Val.fin (n : ℚ)) = a.data) ∧
    (∀ r, to_uint8 a = Except.ok r → ∀ i, i < a.data.length → ∀ q : ℚ,
      a.data.getD i Val.nan = Val.fin q →
      (q < 0 → r.data.getD i 0 = 0) ∧ (255 < q → r.data.getD i 0 = 255)) := by
  constructor
  · intro hf hvals
    constructor
    · simp [to_uint8, hf]
    · rw [List.map_map]
      apply map_eq_self_of
      intro v hv
      obtain ⟨n, hn, rfl⟩ := hvals v hv
      simp [Function.comp, castU8_clipVal_nat hn]
  · intro r hr i hi q hq
    obtain ⟨-, hd | hd⟩ := to_uint8_ok_cases hr
    · rw [hd, getD_map_lt (fun v => castU8 (clipVal (mul255 v))) a.data i hi Val.nan 0, hq]
      constructor
      · intro hneg
        have hneg2 : q * 255 < 0 := mul_neg_of_neg_of_pos hneg (by norm_num)
        show castU8 (clipVal (mul255 (Val.fin q))) = 0
        simp only [mul255]
        exact castU8_clipVal_neg hneg2
      · intro hbig
        have h1 : (0 : ℚ) < q := lt_trans (by norm_num) hbig
        have h2 : q ≤ q * 255 := le_mul_of_one_le_right (le_of_lt h1) (by norm_num)
        have hbig2 : (255 : ℚ) < q * 255 := lt_of_lt_of_le hbig h2
        show castU8 (clipVal (mul255 (Val.fin q))) = 255
        simp only [mul255]
        exact castU8_clipVal_gt hbig2
    · rw [hd, getD_map_lt (fun v => castU8 (clipVal v)) a.data i hi Val.nan 0, hq]
      exact ⟨fun hneg => castU8_clipVal_neg hneg, fun hbig => castU8_clipVal_gt hbig⟩

/-- Witness for C7: the integer array [0, 7, 255] passes through unchanged,
and in the float array [300, -4] (not scaled, since its nanmax exceeds 1)
the value 300 saturates to 255 and the value -4 saturates to 0. -/
theorem c7_roundtrip_saturation_witness :
    to_uint8 { shape := [3], data := [Val.fin 0, Val.fin 7, Val.fin 255], isFloat := false } =
      Except.ok { shape := [3], data := [Val.fin 0, Val.fin 7, Val.fin 255].map (fun v => castU8 (clipVal v)) } ∧
    ∃ r, to_uint8 { shape := [2], data := [Val.fin 300, Val.fin (-4)], isFloat := true } =
      Except.ok r ∧ r.data.getD 0 0 = 255 ∧ r.data.getD 1 0 = 0 := by
  constructor
  · exact ((c7_roundtrip_saturation
      { shape := [3], data := [Val.fin 0, Val.fin 7, Val.fin 255], isFloat := false }).1
      rfl (by
        intro v hv
        simp only [List.mem_cons] at hv
        rcases hv with rfl | rfl | rfl | h
        · exact ⟨0, by norm_num, by norm_num⟩
        · exact ⟨7, by norm_num, by norm_num⟩
        · exact ⟨255, by norm_num, by norm_num⟩
        · simp at h)).1
  · refine ⟨{ shape := [2], data := [255, 0] }, (by rfl), ?_, ?_⟩
    · exact ((c7_roundtrip_saturation
        { shape := [2], data := [Val.fin 300, Val.fin (-4)], isFloat := true }).2
        { shape := [2], data := [255, 0] } (by rfl) 0 (by norm_num) 300 rfl).2 (by norm_num)
    · exact ((c7_roundtrip_saturation
        { shape := [2], data := [Val.fin 300, Val.fin (-4)], isFloat := true }).2
        { shape := [2], data := [255, 0] } (by rfl) 1 (by norm_num) (-4) rfl).1 (by norm_num)

/-- Counterexample for C9 as stated: on an empty (zero-size) floating-point
array, `_to_uint8` raises from `np.nanmax` and produces no result at all. -/
theorem c9_empty_float_counterexample :
    to_uint8 { shape := [0], data := [], isFloat := true } =
      Except.error ExtractErr.nanmaxEmpty := rfl

/-- Amended C9: for every input array that is not an empty floating-point
array (on which `np.nanmax` raises), `_to_uint8` returns a uint8 array of
the same shape and element count whose elements all lie in [0, 255]. -/
theorem c9_to_uint8_invariant (a : NDArray) (h : a.isFloat = true → a.data ≠ []) :
    ∃ r, to_uint8 a = Except.ok r ∧ r.shape = a.shape ∧
      r.data.length = a.data.length ∧ ∀ n ∈ r.data, n ≤ 255 := by
  obtain ⟨r, hr⟩ := to_uint8_ok_exists a h
  obtain ⟨hsh, hd⟩ := to_uint8_ok_cases hr
  refine ⟨r, hr, hsh, ?_, ?_⟩
  · rcases hd with hd | hd <;> simp [hd]
  · intro n hn
    rcases hd with hd | hd <;>
      (rw [hd] at hn
       simp only [List.mem_map] at hn
       obtain ⟨v, hv, rfl⟩ := hn
       exact castU8_clipVal_le _)

/-- Witness for the amended C9, on a one-element all-NaN float array: the
nanmax comparison is false, the NaN is clipped and cast, and the result is
a one-element uint8 array of the same shape. -/
theorem c9_to_uint8_invariant_witness :
    ∃ r, to_uint8 { shape := [1], data := [Val.nan], isFloat := true } = Except.ok r ∧
      r.shape = [1] ∧ r.data.length = 1 ∧ ∀ n ∈ r.data, n ≤ 255 :=
  c9_to_uint8_invariant { shape := [1], data := [Val.nan], isFloat := true }
    (fun _ => by simp)

/-- C2: shape correction in `_save_jpg`, applied after the dtype conversion:
a 3-dimensional array with singleton last axis is squeezed to 2 dimensions;
a 3-dimensional array with first axis in 1, 3, 4 and both remaining axes
larger than 32 is transposed to channel-last order; in particular
(3, 64, 64) becomes (64, 64, 3) while (3, 16, 16) is left untransposed. -/
theorem c2_shape_correction (a b c0 h w : Nat) (d1 d2 : List Nat)
    (hc : c0 = 1 ∨ c0 = 3 ∨ c0 = 4) (hh : 32 < h) (hw : 32 < w) :
    (∀ img u, to_uint8 img = Except.ok u → save_jpg img = Except.ok (saveJpgArray u)) ∧
    (saveJpgArray { shape := [a, b, 1], data := d1 }).shape = [a, b] ∧
    (saveJpgArray { shape := [c0, h, w], data := d2 }).shape = [h, w, c0] ∧
    (saveJpgArray { shape := [3, 64, 64], data := d2 }).shape = [64, 64, 3] ∧
    (saveJpgArray { shape := [3, 16, 16], data := d2 }).shape = [3, 16, 16] := by
  refine ⟨?_, ?_, ?_, ?_, ?_⟩
  · intro img u hu
    simp [save_jpg, hu, Except.map]
  · simp [saveJpgArray, squeezeLast, transposeCHW]
  · have hw1 : w ≠ 1 := by omega
    simp [saveJpgArray, squeezeLast, transposeCHW, hw1, hc, hh, hw]
  · simp [saveJpgArray, squeezeLast, transposeCHW]
  · simp [saveJpgArray, squeezeLast, transposeCHW]

/-- Witness for C2: the shape corrections at concrete shapes (5, 6, 1),
(3, 64, 64) and (3, 16, 16). -/
theorem c2_shape_correction_witness :
    (saveJpgArray { shape := [5, 6, 1], data := [] }).shape = [5, 6] ∧
    (saveJpgArray { shape := [3, 64, 64], data := [] }).shape = [64, 64, 3] ∧
    (saveJpgArray { shape := [3, 16, 16], data := [] }).shape = [3, 16, 16] := by
  have h := c2_shape_correction 5 6 3 64 64 [] [] (Or.inr (Or.inl rfl))
    (by norm_num) (by norm_num)
  exact ⟨h.2.1, h.2.2.2.1, h.2.2.2.2⟩

/-- C10: because the singleton-last-axis squeeze runs before the
channel-first transpose in `_save_jpg`, a (1, H, W) array with H > 32 and
W > 32 is transposed to (H, W, 1) - still 3-dimensional - rather than being
reduced to a 2-dimensional (H, W) array. -/
theorem c10_squeeze_then_transpose (h w : Nat) (d : List Nat) (hh : 32 < h) (hw : 32 < w) :
    (saveJpgArray { shape := [1, h, w], data := d }).shape = [h, w, 1] ∧
    (saveJpgArray { shape := [1, h, w], data := d }).shape.length = 3 := by
  have hw1 : w ≠ 1 := by omega
  constructor
  · simp [saveJpgArray, squeezeLast, transposeCHW, hw1, hh, hw]
  · simp [saveJpgArray, squeezeLast, transposeCHW, hw1, hh, hw]

/-- Witness for C10 at the concrete shape (1, 64, 64): the result has shape
(64, 64, 1). -/
theorem c10_squeeze_then_transpose_witness :
    (saveJpgArray { shape := [1, 64, 64], data := [] }).shape = [64, 64, 1] ∧
    (saveJpgArray { shape := [1, 64, 64], data := [] }).shape.length = 3 :=
  c10_squeeze_then_transpose 64 64 [] (by norm_num) (by norm_num)

theorem mapExcept_error {α β : Type} {g : α → Except ExtractErr β} {l : List α}
    {e : ExtractErr} (h : mapExcept g l = Except.error e) : ∃ x ∈ l, g x = Except.error e := by
  induction l with
  | nil => simp [mapExcept] at h
  | cons a l ih =>
    simp only [mapExcept] at h
    cases hga : g a with
    | error e2 =>
      rw [hga] at h
      simp at h
      exact ⟨a, by simp, by rw [hga, h]⟩
    | ok b =>
      rw [hga] at h
      cases hrest : mapExcept g l with
      | error e2 =>
        rw [hrest] at h
        simp at h
        obtain ⟨x, hx, hgx⟩ := ih (by rw [hrest, h])
        exact ⟨x, by simp [hx], hgx⟩
      | ok bs =>
        rw [hrest] at h
        simp at h

theorem mapExcept_ok {α β : Type} {g : α → Except ExtractErr β} {l : List α}
    {bs : List β} (h : mapExcept g l = Except.ok bs) :
    List.Forall₂ (fun a b => g a = Except.ok b) l bs := by
  induction l generalizing bs with
  | nil =>
    simp only [mapExcept] at h
    injection h with h2
    rw [← h2]
    exact List.Forall₂.nil
  | cons a l ih =>
    simp only [mapExcept] at h
    cases hga : g a with
    | error e =>
      rw [hga] at h
      simp at h
    | ok b =>
      rw [hga] at h
      cases hrest : mapExcept g l with
      | error e =>
        rw [hrest] at h
        simp at h
      | ok bs2 =>
        rw [hrest] at h
        injection h with h2
        rw [← h2]
        exact List.Forall₂.cons hga (ih hrest)

theorem mapExcept_congr {α β : Type} {g g2 : α → Except ExtractErr β} {l : List α}
    (h : ∀ x ∈ l, g x = g2 x) : mapExcept g l = mapExcept g2 l := by
  induction l with
  | nil => rfl
  | cons a l ih =>
    simp only [mapExcept, h a (by simp), ih (fun x hx => h x (by simp [hx]))]

theorem mapExcept_ok_exists {α β : Type} {g : α → Except ExtractErr β} {l : List α}
    (h : ∀ x ∈ l, ∃ b, g x = Except.ok b) : ∃ bs, mapExcept g l = Except.ok bs := by
  induction l with
  | nil => exact ⟨[], rfl⟩
  | cons a l ih =>
    obtain ⟨b, hb⟩ := h a (by simp)
    obtain ⟨bs, hbs⟩ := ih (fun x hx => h x (by simp [hx]))
    exact ⟨b :: bs, by simp only [mapExcept, hb, hbs]⟩

theorem normalizeIC_error {v : ICVal} {e : ExtractErr} (h : normalizeIC v = Except.error e) :
    ∃ t, e = ExtractErr.unexpectedFormat t := by
  cases v with
  | nonIter t =>
    simp [normalizeIC] at h
    exact ⟨t, h.symm⟩
  | objArray es => simp [normalizeIC] at h
  | pyList es => simp [normalizeIC] at h
  | pyTuple es => simp [normalizeIC] at h
  | iterObj es => simp [normalizeIC] at h

theorem save_jpg_error {img : NDArray} {e : ExtractErr} (h : save_jpg img = Except.error e) :
    e = ExtractErr.nanmaxEmpty := by
  unfold save_jpg at h
  cases ht : to_uint8 img with
  | error e2 =>
    rw [ht] at h
    simp [Except.map] at h
    rw [← h]
    exact to_uint8_error_shape ht
  | ok u =>
    rw [ht] at h
    simp [Except.map] at h

theorem processFrames_ne_icolor (cid : String) (frames : List NDArray) (ks : List String) :
    processFrames cid frames ≠ Except.error (ExtractErr.icolorNotFound ks) := by
  intro h
  unfold processFrames at h
  split at h
  · simp at h
  · obtain ⟨i, hi, hgi⟩ := mapExcept_error h
    cases hs : save_jpg (frames.getD (i - 1) default) with
    | error e2 =>
      rw [hs] at hgi
      simp [Except.map] at hgi
      have h2 := save_jpg_error hs
      rw [h2] at hgi
      simp at hgi
    | ok u =>
      rw [hs] at hgi
      simp [Except.map] at hgi

/-- C3: `extract_from_mat` resolves the `Icolor` variable case-insensitively
and raises the not-found error exactly when no key of the container matches
`Icolor` case-insensitively; that error carries exactly the keys not
prefixed with `__`. -/
theorem c3_icolor_lookup (f : MatFile) :
    ((∃ ks, extract_from_mat f = Except.error (ExtractErr.icolorNotFound ks)) ↔
      find_key_case_insensitive (f.vars.map Prod.fst) "Icolor" = none) ∧
    (find_key_case_insensitive (f.vars.map Prod.fst) "Icolor" = none →
      extract_from_mat f = Except.error (ExtractErr.icolorNotFound
        ((f.vars.map Prod.fst).filter (fun k => !(strStartsWith k "__"))))) ∧
    (find_key_case_insensitive (f.vars.map Prod.fst) "Icolor" = none ↔
      ∀ k ∈ f.vars.map Prod.fst, strLower k ≠ strLower "Icolor") := by
  have h2 : find_key_case_insensitive (f.vars.map Prod.fst) "Icolor" = none →
      extract_from_mat f = Except.error (ExtractErr.icolorNotFound
        ((f.vars.map Prod.fst).filter (fun k => !(strStartsWith k "__")))) := by
    intro hn
    unfold extract_from_mat
    rw [hn]
  refine ⟨⟨?_, fun hn => ⟨_, h2 hn⟩⟩, h2, ?_⟩
  · rintro ⟨ks, hks⟩
    by_contra hne
    cases hf : find_key_case_insensitive (f.vars.map Prod.fst) "Icolor" with
    | none => exact hne hf
    | some key =>
      have heq : extract_from_mat f =
          (match normalizeIC (dictGet f.vars key) with
           | Except.error e => Except.error e
           | Except.ok frames => processFrames (chipId f.fname) frames) := by
        unfold extract_from_mat
        rw [hf]
      rw [heq] at hks
      cases hn : normalizeIC (dictGet f.vars key) with
      | error e =>
        rw [hn] at hks
        simp at hks
        obtain ⟨t, ht⟩ := normalizeIC_error hn
        rw [ht] at hks
        simp at hks
      | ok frames =>
        rw [hn] at hks
        simp at hks
        exact processFrames_ne_icolor _ _ _ hks
  · simp [find_key_case_insensitive, List.find?_eq_none]

/-- Witness for C3: a container whose only key is the uppercase `ICOLOR`
does not raise the not-found error, and a container with keys `__header__`
and `other_var` raises it listing exactly `other_var`. -/
theorem c3_icolor_lookup_witness :
    (¬ ∃ ks, extract_from_mat
        { fname := "a.mat", vars := [("ICOLOR", ICVal.pyList [])] } =
      Except.error (ExtractErr.icolorNotFound ks)) ∧
    extract_from_mat { fname := "b.mat", vars := [("__header__", ICVal.nonIter "bytes"), ("other_var", ICVal.nonIter "float")] } =
      Except.error (ExtractErr.icolorNotFound ["other_var"]) := by
  constructor
  · intro hex
    have hnone := (c3_icolor_lookup
      { fname := "a.mat", vars := [("ICOLOR", ICVal.pyList [])] }).1.mp hex
    rw [show find_key_case_insensitive
      (({ fname := "a.mat", vars := [("ICOLOR", ICVal.pyList [])] } : MatFile).vars.map Prod.fst)
      "Icolor" = some "ICOLOR" from rfl] at hnone
    exact Option.noConfusion hnone
  · rw [(c3_icolor_lookup { fname := "b.mat", vars := [("__header__", ICVal.nonIter "bytes"), ("other_var", ICVal.nonIter "float")] }).2.1
      (by rfl)]
    rfl

/-- C4: after the `Icolor` value is normalized to a frame list, extraction
fails with an error stating the actual count when there are fewer than 5
frames, and when there are 5 or more only the first 5 frames are consumed:
the result is unchanged if the frame list is truncated to its first 5
elements. -/
theorem c4_frame_count (cid : String) (frames : List NDArray) :
    (frames.length < 5 →
      processFrames cid frames = Except.error (ExtractErr.tooFewFrames frames.length)) ∧
    (5 ≤ frames.length →
      processFrames cid frames = processFrames cid (frames.take 5)) := by
  constructor
  · intro h
    unfold processFrames
    rw [if_pos h]
  · intro h
    have h5 : ¬ frames.length < 5 := by omega
    have ht5 : (frames.take 5).length = 5 := by
      rw [List.length_take]
      omega
    have ht : ¬ (frames.take 5).length < 5 := by omega
    unfold processFrames
    rw [if_neg h5, if_neg ht]
    apply mapExcept_congr
    intro i hi
    have hi5 : i - 1 < 5 := by
      simp only [List.mem_cons, List.not_mem_nil, or_false] at hi
      rcases hi with rfl | rfl | rfl | rfl | rfl <;> norm_num
    have hget : frames.getD (i - 1) default = (frames.take 5).getD (i - 1) default := by
      rw [List.getD_eq_getElem?_getD, List.getD_eq_getElem?_getD, List.getElem?_take]
      simp [hi5]
    rw [hget]

/-- Witness for C4: three frames give the count-3 error, and with seven
frames the result agrees with the one for the first five frames. -/
theorem c4_frame_count_witness :
    processFrames "7" (List.replicate 3
      { shape := [1], data := [Val.fin 1], isFloat := false }) =
      Except.error (ExtractErr.tooFewFrames 3) ∧
    processFrames "7" (List.replicate 7
      { shape := [1], data := [Val.fin 1], isFloat := false }) =
      processFrames "7" ((List.replicate 7
        { shape := [1], data := [Val.fin 1], isFloat := false }).take 5) := by
  constructor
  · have h := (c4_frame_count "7" (List.replicate 3
      { shape := [1], data := [Val.fin 1], isFloat := false })).1 (by simp)
    simpa using h
  · exact (c4_frame_count "7" (List.replicate 7
      { shape := [1], data := [Val.fin 1], isFloat := false })).2 (by simp)

theorem forall2_map_fst {cid : String} {l : List Nat} {outs : List (String × U8Array)}
    (h : List.Forall₂ (fun i b => Prod.fst b = outName cid i) l outs) :
    outs.map Prod.fst = l.map (outName cid) := by
  induction h with
  | nil => rfl
  | cons hab hrest ih => simp [ih, hab]

theorem extract_ok_processFrames {f : MatFile} {outs : List (String × U8Array)}
    (h : extract_from_mat f = Except.ok outs) :
    ∃ key frames, find_key_case_insensitive (f.vars.map Prod.fst) "Icolor" = some key ∧
      normalizeIC (dictGet f.vars key) = Except.ok frames ∧
      processFrames (chipId f.fname) frames = Except.ok outs := by
  cases hf : find_key_case_insensitive (f.vars.map Prod.fst) "Icolor" with
  | none =>
    have := (by unfold extract_from_mat; rw [hf] :
      extract_from_mat f = Except.error (ExtractErr.icolorNotFound
        ((f.vars.map Prod.fst).filter (fun k => !(strStartsWith k "__")))))
    rw [h] at this
    exact Except.noConfusion this
  | some key =>
    have heq : extract_from_mat f =
        (match normalizeIC (dictGet f.vars key) with
         | Except.error e => Except.error e
         | Except.ok frames => processFrames (chipId f.fname) frames) := by
      unfold extract_from_mat
      rw [hf]
    rw [heq] at h
    cases hn : normalizeIC (dictGet f.vars key) with
    | error e =>
      rw [hn] at h
      simp at h
    | ok frames =>
      rw [hn] at h
      exact ⟨key, frames, rfl, hn, h⟩

/-- C5: for every input file whose container resolves `Icolor` to at least 5
frames, each of the first five being convertible (not an empty float
array), extraction succeeds and produces exactly 5 outputs, named
`imagem_<chip_id>_<i>.jpg` for i = 1..5, where the chip id is the digit
group when the filename matches `Chip_<digits>.mat` case-insensitively and
the filename stem verbatim otherwise (witnessed here by the concrete names
`Chip_012.mat`, `chip_7.MAT` and `Chip_12x.mat`). -/
theorem c5_output_names (f : MatFile) (key : String) (frames : List NDArray)
    (hk : find_key_case_insensitive (f.vars.map Prod.fst) "Icolor" = some key)
    (hn : normalizeIC (dictGet f.vars key) = Except.ok frames)
    (hlen : 5 ≤ frames.length)
    (hframes : ∀ i, i < 5 →
      (frames.getD i default).isFloat = true → (frames.getD i default).data ≠ []) :
    ∃ outs, extract_from_mat f = Except.ok outs ∧
      outs.map Prod.fst = [1, 2, 3, 4, 5].map (outName (chipId f.fname)) ∧
      outs.length = 5 ∧
      chipId "Chip_012.mat" = "012" ∧
      chipId "chip_7.MAT" = "7" ∧
      chipId "Chip_12x.mat" = "Chip_12x" := by
  have heq0 : extract_from_mat f =
      (match normalizeIC (dictGet f.vars key) with
       | Except.error e => Except.error e
       | Except.ok fr => processFrames (chipId f.fname) fr) := by
    unfold extract_from_mat
    rw [hk]
  have heq : extract_from_mat f = processFrames (chipId f.fname) frames := by
    rw [heq0, hn]
  have hsave : ∀ i ∈ [1, 2, 3, 4, 5], ∃ b,
      ((save_jpg (frames.getD (i - 1) default)).map
        (fun img => (outName (chipId f.fname) i, img))) = Except.ok b := by
    intro i hi
    have hi5 : i - 1 < 5 := by
      simp only [List.mem_cons, List.not_mem_nil, or_false] at hi
      rcases hi with rfl | rfl | rfl | rfl | rfl <;> norm_num
    obtain ⟨r, hr⟩ := to_uint8_ok_exists (frames.getD (i - 1) default) (hframes (i - 1) hi5)
    refine ⟨(outName (chipId f.fname) i, saveJpgArray r), ?_⟩
    unfold save_jpg
    rw [hr]
    rfl
  obtain ⟨outs, houts⟩ := mapExcept_ok_exists hsave
  have hp : processFrames (chipId f.fname) frames = Except.ok outs := by
    unfold processFrames
    rw [if_neg (by omega)]
    exact houts
  have hf2 := mapExcept_ok houts
  have hf3 : List.Forall₂ (fun i b => Prod.fst b = outName (chipId f.fname) i)
      [1, 2, 3, 4, 5] outs := by
    refine hf2.imp ?_
    intro i b hb
    cases hs : save_jpg (frames.getD (i - 1) default) with
    | error e =>
      rw [hs] at hb
      simp [Except.map] at hb
    | ok u =>
      rw [hs] at hb
      simp only [Except.map] at hb
      injection hb with hb2
      rw [← hb2]
  refine ⟨outs, heq.trans hp, forall2_map_fst hf3, ?_, rfl, rfl, rfl⟩
  have := hf3.length_eq
  simpa using this.symm

/-- Witness for C5 on a concrete file `Chip_3.mat` with five one-pixel
frames: extraction succeeds with exactly the five expected names. -/
theorem c5_output_names_witness :
    ∃ outs, extract_from_mat { fname := "Chip_3.mat", vars := [("Icolor", ICVal.objArray (List.replicate 5 { shape := [1, 1], data := [Val.fin 5], isFloat := false }))] } = Except.ok outs ∧
      outs.map Prod.fst = ["imagem_3_1.jpg", "imagem_3_2.jpg", "imagem_3_3.jpg",
        "imagem_3_4.jpg", "imagem_3_5.jpg"] := by
  obtain ⟨outs, ho, hnames, -⟩ := c5_output_names
    { fname := "Chip_3.mat", vars := [("Icolor", ICVal.objArray (List.replicate 5 { shape := [1, 1], data := [Val.fin 5], isFloat := false }))] }
    "Icolor" (List.replicate 5 { shape := [1, 1], data := [Val.fin 5], isFloat := false })
    rfl rfl (by simp) (by
      intro i hi h
      have hget : (List.replicate 5 ({ shape := [1, 1], data := [Val.fin 5], isFloat := false } : NDArray)).getD i default =
          ({ shape := [1, 1], data := [Val.fin 5], isFloat := false } : NDArray) := by
        rw [List.getD_eq_getElem?_getD, List.getElem?_replicate, if_pos hi]
        rfl
      rw [hget] at h
      simp at h)
  refine ⟨outs, ho, ?_⟩
  rw [hnames]
  rfl

/-- C6: the batch driver logs every file - errors are caught and logged with
the file name and the error - processes every remaining file, and the
running image total is 5 times the number of fully successful files (+5 per
success, +0 per failure). -/
theorem c6_batch_driver (files : List MatFile) :
    (mainLoop files).2 = files.map logOf ∧
    (mainLoop files).1 = 5 * (files.filter extractOk).length := by
  have key : ∀ (fs : List MatFile) (n : Nat) (logs : List LogEntry),
      List.foldl
        (fun acc f =>
          match extract_from_mat f with
          | Except.ok _ => (acc.1 + 5, acc.2 ++ [LogEntry.ok f.fname])
          | Except.error e => (acc.1, acc.2 ++ [LogEntry.err f.fname e]))
        (n, logs) fs =
      (n + 5 * (fs.filter extractOk).length, logs ++ fs.map logOf) := by
    intro fs
    induction fs with
    | nil => intro n logs; simp
    | cons f fs ih =>
      intro n logs
      cases hf : extract_from_mat f with
      | ok v =>
        have hok : extractOk f = true := by simp [extractOk, hf]
        have hlog : logOf f = LogEntry.ok f.fname := by simp [logOf, hf]
        simp only [List.foldl_cons, hf, List.filter_cons, hok, if_true, List.map_cons, hlog]
        rw [ih]
        refine Prod.ext ?_ ?_
        · simp
          omega
        · simp
      | error e =>
        have hok : extractOk f = false := by simp [extractOk, hf]
        have hlog : logOf f = LogEntry.err f.fname e := by simp [logOf, hf]
        simp only [List.foldl_cons, hf, List.filter_cons, hok, Bool.false_eq_true, if_false,
          List.map_cons, hlog]
        rw [ih]
        refine Prod.ext ?_ ?_
        · simp
        · simp
  have h0 := key files 0 []
  unfold mainLoop
  rw [h0]
  simp

/-- Witness for C6 on a two-file batch - one succeeding file and one whose
container lacks `Icolor`: both files are logged, in order, and the total is
5. -/
theorem c6_batch_driver_witness :
    (mainLoop [{ fname := "Chip_3.mat", vars := [("Icolor", ICVal.objArray (List.replicate 5 { shape := [1, 1], data := [Val.fin 5], isFloat := false }))] },
      { fname := "b.mat", vars := [("other_var", ICVal.nonIter "float")] }]).2 =
      [{ fname := "Chip_3.mat", vars := [("Icolor", ICVal.objArray (List.replicate 5 { shape := [1, 1], data := [Val.fin 5], isFloat := false }))] },
        { fname := "b.mat", vars := [("other_var", ICVal.nonIter "float")] }].map logOf ∧
    (mainLoop [{ fname := "Chip_3.mat", vars := [("Icolor", ICVal.objArray (List.replicate 5 { shape := [1, 1], data := [Val.fin 5], isFloat := false }))] },
      { fname := "b.mat", vars := [("other_var", ICVal.nonIter "float")] }]).1 = 5 := by
  refine ⟨(c6_batch_driver _).1, (c6_batch_driver _).2.trans ?_⟩
  rfl

/-- Counterexample for C8 as stated: the script loads with
`squeeze_me=True`, so a variable holding a 1-element container (a 1x1 cell
around the 1x1 numeric value 7) is auto-flattened all the way to the bare
scalar 7 - the nested structure is not preserved. -/
theorem c8_no_flatten_counterexample :
    loadmat_model [("Icolor", MatRaw.cell [1, 1] [MatRaw.arr [1, 1] [7]])] =
      [("Icolor", MatVal.scalar 7)] ∧
    MatVal.scalar 7 ≠ MatVal.cell [1, 1] [MatVal.scalar 7] := by
  constructor
  · rfl
  · intro hcontra
    exact MatVal.noConfusion hcontra

/-- Amended C8: container loading with the flags the script passes
(`squeeze_me=True`, `struct_as_record=False`) auto-flattens single-element
containers - a 1-element cell array loads as its sole loaded element - and
converts record-like structures into indexable `mat_struct` objects rather
than fixed-schema records. -/
theorem c8_loadmat_flags (raw : MatRaw) (s : List Nat)
    (fields : List (String × MatRaw)) :
    loadValue true false (MatRaw.cell s [raw]) = loadValue true false raw ∧
    loadValue true false (MatRaw.strct fields) =
      MatVal.matStruct (loadFields true false fields) := by
  constructor
  · simp [loadValue, loadList]
  · simp [loadValue]
